import Mathlib

/-!
Shallow embedding of the announcement propagation and time-windowed
retention engine of the Build-a-bridge repository.

The embedded code is `src/unnamed/part_002` (the announcements service:
`saveAnnouncement`, `subscribeToAnnouncements`, `subscribeToLineAnnouncements`,
`subscribeToCombinedAnnouncements`, `getAnnouncements`, `deleteAnnouncement`)
together with `src/utils/timeAgo.ts` (`isWithinHours`,
`shouldDisplayAnnouncement`, `shouldKeepAnnouncement`).

Modelling choices:
* JavaScript epoch-millisecond timestamps are `Int` (they are ordinary
  numbers compared with `<=`, `>=` and subtracted; no overflow is possible
  in the relevant range, so integer arithmetic is exact).
* `Date.now()` is passed explicitly as a `now : Int` parameter to every
  operation that reads the clock.
* The Firestore state touched by this service is a `Store`: an association
  list from train number to the train document's `announcements` array, and
  an association list from line id to that line's `announcements`
  sub-collection (document id, i.e. the `createdAt` decimal string, paired
  with the announcement stored under it).  A missing key models a
  non-existent document/collection.
* `setDoc` on a keyed document is `setAssoc` (replace-or-insert preserving
  order), `deleteDoc` is `removeAssoc`, a snapshot read is `List.lookup`.
* JavaScript truthiness of optional string arguments (the
  `...(announcerId && { announcerId })` spreads and the `if (lineNumber)` /
  `if (announcementToDelete.lineNumber)` guards) is `truthyOpt`: an absent
  value and the empty string are falsy.
* `Array.prototype.sort` with the comparator `(a, b) => b.createdAt -
  a.createdAt` is the stable sort `List.insertionSort` with the relation
  `annDescLE a b = (b.createdAt <= a.createdAt)` (larger `createdAt` first,
  ties kept in encounter order, as ECMAScript guarantees).
* `arr.slice(-MAX_ANNOUNCEMENTS)` on an array longer than the cap keeps the
  last `MAX_ANNOUNCEMENTS` elements, i.e. drops `length - MAX_ANNOUNCEMENTS`
  from the front.
* A thrown `Error` is `Except.error` carrying the message; `getDoc` failure
  for the read-error claim is modelled by running the function body on an
  `Except`-valued read result.
-/

/-- The `AnnouncementPriority` union from `src/unnamed/part_002`:
`"emergency" | "service_change" | "info"`. -/
inductive AnnouncementPriority where
  | emergency
  | service_change
  | info
deriving DecidableEq

/-- The `Announcement` interface from `src/unnamed/part_002`.  Optional
fields are `Option String` (`lineNumber` ranges over the `TTCLine` string
union, embedded as `String`). -/
structure Announcement where
  text : String
  priority : AnnouncementPriority
  driverName : String
  createdAt : Int
  announcerId : Option String
  announcerEmail : Option String
  lineNumber : Option String
deriving DecidableEq

/-- JavaScript truthiness for an optional string: `undefined` and `""` are
falsy, every other string is truthy. -/
def truthyOpt (o : Option String) : Option String :=
  match o with
  | none => none
  | some s => if s = "" then none else some s

/-- Replace-or-insert into an association list, used to model a keyed
`setDoc`: the first binding of the key is replaced in place, otherwise the
binding is appended. -/
def setAssoc {α : Type} (k : String) (v : α) : List (String × α) → List (String × α)
  | [] => [(k, v)]
  | (k', v') :: rest => if k' = k then (k, v) :: rest else (k', v') :: setAssoc k v rest

/-- Remove every binding of a key from an association list, used to model
`deleteDoc` on a keyed document. -/
def removeAssoc {α : Type} (k : String) (l : List (String × α)) : List (String × α) :=
  l.filter (fun p => p.1 ≠ k)

/-- The Firestore state the announcements service touches: the
`announcements` array of each existing train document, and the keyed
announcement documents of each line's `lines/{line}/announcements`
sub-collection. -/
structure Store where
  trains : List (String × List Announcement)
  lines : List (String × List (String × Announcement))
deriving DecidableEq

/-- A store with no train documents and no line announcement documents. -/
def emptyStore : Store := { trains := [], lines := [] }

/-- The `announcements` array read for a train: `[]` when the document does
not exist (`docSnapshot.exists()` false) or has no `announcements` field. -/
def trainList (s : Store) (trainNumber : String) : List Announcement :=
  (s.trains.lookup trainNumber).getD []

/-- The documents of the `lines/{lineNumber}/announcements` sub-collection,
in stored order. -/
def lineDocs (s : Store) (lineNumber : String) : List (String × Announcement) :=
  (s.lines.lookup lineNumber).getD []

/-- Function `isWithinHours` from `src/utils/timeAgo.ts`:
`now - timestamp <= hours * 60 * 60 * 1000`. -/
def isWithinHours (timestamp : Int) (hours : Int) (now : Int) : Bool :=
  let diffMs := now - timestamp
  let maxMs := hours * 60 * 60 * 1000
  diffMs ≤ maxMs

/-- Function `shouldDisplayAnnouncement` from `src/utils/timeAgo.ts`: within 1 hour. -/
def shouldDisplayAnnouncement (timestamp : Int) (now : Int) : Bool :=
  isWithinHours timestamp 1 now

/-- Function `shouldKeepAnnouncement` from `src/utils/timeAgo.ts`: within 6 hours. -/
def shouldKeepAnnouncement (timestamp : Int) (now : Int) : Bool :=
  isWithinHours timestamp 6 now

/-- Constant `MAX_ANNOUNCEMENTS` from `src/unnamed/part_002`. -/
def MAX_ANNOUNCEMENTS : Nat := 20

/-- The comparator `(a, b) => b.createdAt - a.createdAt` of
`announcements.sort`, as the total preorder it sorts by:
`a` may precede `b` iff `b.createdAt <= a.createdAt` (descending). -/
def annDescLE (a b : Announcement) : Prop :=
  b.createdAt ≤ a.createdAt

instance : DecidableRel annDescLE := fun a b => by
  unfold annDescLE
  infer_instance

instance : IsTotal Announcement annDescLE :=
  ⟨fun a b => Int.le_total b.createdAt a.createdAt⟩

instance : IsTrans Announcement annDescLE :=
  ⟨fun _ _ _ hab hbc => Int.le_trans hbc hab⟩

/-- The call `announcements.sort((a, b) => b.createdAt - a.createdAt)`: the stable
descending sort by `createdAt`. -/
def sortByCreatedAtDesc (l : List Announcement) : List Announcement :=
  l.insertionSort annDescLE

/-- The `newAnnouncement` object literal built by `saveAnnouncement`:
`createdAt` is stamped with `now`, the optional fields are spread only when
truthy. -/
def newAnnouncementOf (text : String) (priority : AnnouncementPriority)
    (driverName : String) (announcerId announcerEmail lineNumber : Option String)
    (now : Int) : Announcement :=
  { text := text
    priority := priority
    driverName := driverName
    createdAt := now
    announcerId := truthyOpt announcerId
    announcerEmail := truthyOpt announcerEmail
    lineNumber := truthyOpt lineNumber }

/-- The list transformation of `saveAnnouncement`'s body on the train
document's array: push the new announcement, filter by the 6-hour keep
window, `slice(-MAX_ANNOUNCEMENTS)` when over the cap, then sort descending
by `createdAt`. -/
def saveAnnouncementList (existing : List Announcement) (newAnnouncement : Announcement)
    (now : Int) : List Announcement :=
  let announcements := existing ++ [newAnnouncement]
  let announcements := announcements.filter (fun a => shouldKeepAnnouncement a.createdAt now)
  let announcements :=
    if MAX_ANNOUNCEMENTS < announcements.length then
      announcements.drop (announcements.length - MAX_ANNOUNCEMENTS)
    else announcements
  sortByCreatedAtDesc announcements

/-- Function `saveAnnouncement` from `src/unnamed/part_002`: read the train document
(empty array when absent), push/filter/trim/sort its `announcements` array,
write it back, and when `lineNumber` is truthy additionally write the new
announcement as the individually keyed document `${now}` of
`lines/{lineNumber}/announcements`. -/
def saveAnnouncement (s : Store) (trainNumber : String) (text : String)
    (priority : AnnouncementPriority) (driverName : String)
    (announcerId announcerEmail lineNumber : Option String) (now : Int) : Store :=
  let newAnnouncement :=
    newAnnouncementOf text priority driverName announcerId announcerEmail lineNumber now
  let announcements := saveAnnouncementList (trainList s trainNumber) newAnnouncement now
  let s1 : Store := { s with trains := setAssoc trainNumber announcements s.trains }
  match truthyOpt lineNumber with
  | some ln =>
      { s1 with
        lines := setAssoc ln (setAssoc (toString now) newAnnouncement (lineDocs s1 ln)) s1.lines }
  | none => s1

/-- The snapshot callback body of `subscribeToAnnouncements`: the emission
for a train document snapshot (`none` when the document does not exist). -/
def trainSubscriptionEmission (snapshot : Option (List Announcement)) (now : Int) :
    List Announcement :=
  match snapshot with
  | some data =>
      sortByCreatedAtDesc (data.filter (fun a => shouldDisplayAnnouncement a.createdAt now))
  | none => []

/-- The inline one-hour filter of `subscribeToLineAnnouncements` and
`subscribeToCombinedAnnouncements`:
`a.createdAt >= Date.now() - (60 * 60 * 1000)`. -/
def lineDisplayFilter (createdAt : Int) (now : Int) : Bool :=
  let oneHourAgo := now - 60 * 60 * 1000
  createdAt ≥ oneHourAgo

/-- The snapshot callback body of `subscribeToLineAnnouncements`: collect
the documents of the line's sub-collection, filter to the last hour with the
inline filter, sort descending by `createdAt`. -/
def lineSubscriptionEmission (docs : List (String × Announcement)) (now : Int) :
    List Announcement :=
  let announcements := docs.map Prod.snd
  let announcements := announcements.filter (fun a => lineDisplayFilter a.createdAt now)
  sortByCreatedAtDesc announcements

/-- Closure `combineAndUpdate` from `subscribeToCombinedAnnouncements`: concatenate
the line and train buffers, filter to the last hour with the inline filter,
sort descending by `createdAt`; the result is what `onUpdate` receives. -/
def combineEmission (lineAnnouncements trainAnnouncements : List Announcement)
    (now : Int) : List Announcement :=
  let combined := lineAnnouncements ++ trainAnnouncements
  let filtered := combined.filter (fun a => lineDisplayFilter a.createdAt now)
  sortByCreatedAtDesc filtered

/-- Function `getAnnouncements` from `src/unnamed/part_002`, on a store state:
`[]` when the train document does not exist, otherwise the stored array
filtered by `shouldDisplayAnnouncement` and sorted descending. -/
def getAnnouncements (s : Store) (trainNumber : String) (now : Int) : List Announcement :=
  match s.trains.lookup trainNumber with
  | none => []
  | some data =>
      sortByCreatedAtDesc (data.filter (fun a => shouldDisplayAnnouncement a.createdAt now))

/-- Function `getAnnouncements` run on the outcome of its `getDoc` call: a failed
read (`.error`) is caught, logged and rethrown unchanged; a missing document
returns `[]`; an existing document's array is filtered by
`shouldDisplayAnnouncement` and sorted descending. -/
def getAnnouncementsRead (readResult : Except String (Option (List Announcement)))
    (now : Int) : Except String (List Announcement) :=
  match readResult with
  | .error e => .error e
  | .ok none => .ok []
  | .ok (some data) =>
      .ok (sortByCreatedAtDesc (data.filter (fun a => shouldDisplayAnnouncement a.createdAt now)))

/-- Function `deleteAnnouncement` from `src/unnamed/part_002`: throws
`"Train document not found"` when the train document does not exist;
otherwise filters out every entry whose `createdAt` equals the target's,
writes the remainder back, and when the deleted announcement's `lineNumber`
is truthy also deletes the keyed document `${createdAt}` from that line's
sub-collection. -/
def deleteAnnouncement (s : Store) (trainNumber : String)
    (announcementToDelete : Announcement) : Except String Store :=
  match s.trains.lookup trainNumber with
  | none => .error "Train document not found"
  | some data =>
      let announcements :=
        data.filter (fun a => a.createdAt ≠ announcementToDelete.createdAt)
      let s1 : Store := { s with trains := setAssoc trainNumber announcements s.trains }
      match truthyOpt announcementToDelete.lineNumber with
      | some ln =>
          .ok { s1 with
                lines :=
                  setAssoc ln
                    (removeAssoc (toString announcementToDelete.createdAt) (lineDocs s1 ln))
                    s1.lines }
      | none => .ok s1

/-- One `saveAnnouncement` call: its arguments together with the value
`Date.now()` returned at that call. -/
structure SaveCall where
  text : String
  priority : AnnouncementPriority
  driverName : String
  announcerId : Option String
  announcerEmail : Option String
  lineNumber : Option String
  now : Int
deriving DecidableEq

/-- The announcement a call stamps. -/
def SaveCall.ann (c : SaveCall) : Announcement :=
  newAnnouncementOf c.text c.priority c.driverName c.announcerId c.announcerEmail
    c.lineNumber c.now

/-- Apply one `saveAnnouncement` call to a store. -/
def applySave (trainNumber : String) (s : Store) (c : SaveCall) : Store :=
  saveAnnouncement s trainNumber c.text c.priority c.driverName c.announcerId
    c.announcerEmail c.lineNumber c.now

/-- Run a sequence of `saveAnnouncement` calls to one train partition,
starting from a store with no documents. -/
def runSaves (trainNumber : String) (calls : List SaveCall) : Store :=
  calls.foldl (applySave trainNumber) emptyStore

/-- A list of announcements sorted strictly descending by `createdAt`. -/
def strictlyDescByCreatedAt (l : List Announcement) : Prop :=
  l.Pairwise (fun a b => b.createdAt < a.createdAt)

instance strictlyDescByCreatedAt.decide (l : List Announcement) :
    Decidable (strictlyDescByCreatedAt l) := by
  unfold strictlyDescByCreatedAt
  infer_instance

/-- The 21 sequential calls of the spec's capacity scenario: train `"200"`,
`createdAt` values `1, 2, ..., 21` (pairwise within the 6-hour keep
window). -/
def capacityScenarioCalls : List SaveCall :=
  (List.range 21).map (fun i =>
    { text := "t"
      priority := AnnouncementPriority.info
      driverName := "d"
      announcerId := none
      announcerEmail := none
      lineNumber := none
      now := (i : Int) + 1 })

/-! ### Basic lemmas about the store and the sort -/

theorem lookup_setAssoc_self {α : Type} (k : String) (v : α) (l : List (String × α)) :
    (setAssoc k v l).lookup k = some v := by
  induction l with
  | nil => simp [setAssoc, List.lookup]
  | cons p rest ih =>
      obtain ⟨k', v'⟩ := p
      by_cases h : k' = k
      · simp [setAssoc, h, List.lookup]
      · simp only [setAssoc, if_neg h, List.lookup]
        have : (k == k') = false := by
          simp [beq_iff_eq]
          exact fun he => h he.symm
        simp [this, ih]

theorem mem_map_snd_setAssoc {α : Type} (k : String) (v : α) (l : List (String × α)) :
    v ∈ (setAssoc k v l).map Prod.snd := by
  induction l with
  | nil => simp [setAssoc]
  | cons p rest ih =>
      obtain ⟨k', v'⟩ := p
      by_cases h : k' = k
      · simp [setAssoc, h]
      · simp only [setAssoc, if_neg h, List.map_cons, List.mem_cons]
        exact Or.inr ih

theorem mem_sortByCreatedAtDesc {a : Announcement} {l : List Announcement} :
    a ∈ sortByCreatedAtDesc l ↔ a ∈ l :=
  (List.perm_insertionSort annDescLE l).mem_iff

theorem sortByCreatedAtDesc_sorted (l : List Announcement) :
    (sortByCreatedAtDesc l).Pairwise annDescLE :=
  List.sorted_insertionSort annDescLE l

theorem sortByCreatedAtDesc_perm (l : List Announcement) :
    (sortByCreatedAtDesc l).Perm l :=
  List.perm_insertionSort annDescLE l

theorem strictlyDesc_of_sorted_nodup {l : List Announcement}
    (hs : l.Pairwise annDescLE) (hn : (l.map Announcement.createdAt).Nodup) :
    strictlyDescByCreatedAt l := by
  have hne : l.Pairwise (fun a b => a.createdAt ≠ b.createdAt) := by
    rw [List.Nodup, List.pairwise_map] at hn
    exact hn
  have := hs.and hne
  refine this.imp ?_
  intro a b hab
  obtain ⟨h1, h2⟩ := hab
  unfold annDescLE at h1
  omega

/-! ### Lemmas about a single `saveAnnouncement` write -/

theorem saveAnnouncementList_def (existing : List Announcement) (n : Announcement)
    (now : Int) :
    saveAnnouncementList existing n now =
      sortByCreatedAtDesc
        (if MAX_ANNOUNCEMENTS <
            ((existing ++ [n]).filter (fun a => shouldKeepAnnouncement a.createdAt now)).length
         then
          ((existing ++ [n]).filter (fun a => shouldKeepAnnouncement a.createdAt now)).drop
            (((existing ++ [n]).filter (fun a => shouldKeepAnnouncement a.createdAt now)).length -
              MAX_ANNOUNCEMENTS)
         else (existing ++ [n]).filter (fun a => shouldKeepAnnouncement a.createdAt now)) :=
  rfl

theorem saveAnnouncementList_length (existing : List Announcement)
    (n : Announcement) (now : Int) :
    (saveAnnouncementList existing n now).length ≤ MAX_ANNOUNCEMENTS := by
  rw [saveAnnouncementList_def, (sortByCreatedAtDesc_perm _).length_eq]
  set f := (existing ++ [n]).filter (fun a => shouldKeepAnnouncement a.createdAt now) with hf
  by_cases h : MAX_ANNOUNCEMENTS < f.length
  · simp only [if_pos h, List.length_drop]
    omega
  · simp only [if_neg h]
    omega

theorem mem_saveAnnouncementList_subset {existing : List Announcement}
    {n a : Announcement} {now : Int}
    (ha : a ∈ saveAnnouncementList existing n now) : a ∈ existing ++ [n] := by
  rw [saveAnnouncementList_def, (sortByCreatedAtDesc_perm _).mem_iff] at ha
  set f := (existing ++ [n]).filter (fun a => shouldKeepAnnouncement a.createdAt now) with hf
  have haf : a ∈ f := by
    by_cases h : MAX_ANNOUNCEMENTS < f.length
    · rw [if_pos h] at ha
      exact (List.drop_sublist _ _).subset ha
    · rwa [if_neg h] at ha
  exact (List.filter_sublist _).subset haf

theorem keep_of_mem_saveAnnouncementList {existing : List Announcement}
    {n a : Announcement} {now : Int}
    (ha : a ∈ saveAnnouncementList existing n now) :
    shouldKeepAnnouncement a.createdAt now = true := by
  rw [saveAnnouncementList_def, (sortByCreatedAtDesc_perm _).mem_iff] at ha
  set f := (existing ++ [n]).filter (fun a => shouldKeepAnnouncement a.createdAt now) with hf
  have haf : a ∈ f := by
    by_cases h : MAX_ANNOUNCEMENTS < f.length
    · rw [if_pos h] at ha
      exact (List.drop_sublist _ _).subset ha
    · rwa [if_neg h] at ha
  exact (List.mem_filter.mp haf).2

theorem saveAnnouncementList_sorted (existing : List Announcement)
    (n : Announcement) (now : Int) :
    (saveAnnouncementList existing n now).Pairwise annDescLE := by
  rw [saveAnnouncementList_def]
  exact sortByCreatedAtDesc_sorted _

theorem mem_saveAnnouncementList_self (existing : List Announcement)
    {n : Announcement} {now : Int} (hc : n.createdAt = now) :
    n ∈ saveAnnouncementList existing n now := by
  rw [saveAnnouncementList_def, (sortByCreatedAtDesc_perm _).mem_iff]
  have hkeep : shouldKeepAnnouncement n.createdAt now = true := by
    simp only [shouldKeepAnnouncement, isWithinHours, hc, decide_eq_true_eq]
    omega
  have hfil :
      (existing ++ [n]).filter (fun a => shouldKeepAnnouncement a.createdAt now) =
        existing.filter (fun a => shouldKeepAnnouncement a.createdAt now) ++ [n] := by
    rw [List.filter_append]
    simp [hkeep]
  rw [hfil]
  set g := existing.filter (fun a => shouldKeepAnnouncement a.createdAt now) with hg
  by_cases h : MAX_ANNOUNCEMENTS < (g ++ [n]).length
  · rw [if_pos h]
    have hle : (g ++ [n]).length - MAX_ANNOUNCEMENTS ≤ g.length := by
      simp only [List.length_append, List.length_singleton, MAX_ANNOUNCEMENTS] at h ⊢
      omega
    rw [List.drop_append_of_le_length hle]
    simp
  · rw [if_neg h]
    simp

theorem saveAnnouncementList_createdAt_nodup {existing : List Announcement}
    {n : Announcement} {now : Int}
    (hn : ((existing ++ [n]).map Announcement.createdAt).Nodup) :
    ((saveAnnouncementList existing n now).map Announcement.createdAt).Nodup := by
  rw [saveAnnouncementList_def]
  set f := (existing ++ [n]).filter (fun a => shouldKeepAnnouncement a.createdAt now) with hf
  have h1 := (sortByCreatedAtDesc_perm
      (if MAX_ANNOUNCEMENTS < f.length then f.drop (f.length - MAX_ANNOUNCEMENTS) else f)).map
      Announcement.createdAt
  refine h1.nodup_iff.mpr ?_
  have hsub : (if MAX_ANNOUNCEMENTS < f.length then
      f.drop (f.length - MAX_ANNOUNCEMENTS) else f).Sublist (existing ++ [n]) := by
    by_cases h : MAX_ANNOUNCEMENTS < f.length
    · rw [if_pos h]
      exact (List.drop_sublist _ _).trans (List.filter_sublist _)
    · rw [if_neg h]
      exact List.filter_sublist _
  exact (hsub.map Announcement.createdAt).nodup hn

/-! ### How `saveAnnouncement` updates the store -/

theorem trainList_saveAnnouncement (s : Store) (trainNumber : String) (text : String)
    (priority : AnnouncementPriority) (driverName : String)
    (announcerId announcerEmail lineNumber : Option String) (now : Int) :
    trainList (saveAnnouncement s trainNumber text priority driverName announcerId
        announcerEmail lineNumber now) trainNumber =
      saveAnnouncementList (trainList s trainNumber)
        (newAnnouncementOf text priority driverName announcerId announcerEmail lineNumber now)
        now := by
  unfold saveAnnouncement
  cases h : truthyOpt lineNumber with
  | none => simp only [h, trainList, lookup_setAssoc_self, Option.getD_some]
  | some ln => simp only [h, trainList, lookup_setAssoc_self, Option.getD_some]

theorem lineDocs_saveAnnouncement (s : Store) (trainNumber : String) (text : String)
    (priority : AnnouncementPriority) (driverName : String)
    (announcerId announcerEmail : Option String) {ln : String} (h : ln ≠ "")
    (now : Int) :
    lineDocs (saveAnnouncement s trainNumber text priority driverName announcerId
        announcerEmail (some ln) now) ln =
      setAssoc (toString now)
        (newAnnouncementOf text priority driverName announcerId announcerEmail (some ln) now)
        (lineDocs s ln) := by
  unfold saveAnnouncement
  have ht : truthyOpt (some ln) = some ln := by simp [truthyOpt, h]
  simp only [ht, lineDocs, lookup_setAssoc_self, Option.getD_some]

theorem runSaves_append (trainNumber : String) (calls : List SaveCall) (c : SaveCall) :
    runSaves trainNumber (calls ++ [c]) =
      applySave trainNumber (runSaves trainNumber calls) c := by
  simp [runSaves, List.foldl_append]

theorem trainList_applySave (trainNumber : String) (s : Store) (c : SaveCall) :
    trainList (applySave trainNumber s c) trainNumber =
      saveAnnouncementList (trainList s trainNumber) c.ann c.now := by
  unfold applySave SaveCall.ann
  exact trainList_saveAnnouncement s trainNumber c.text c.priority c.driverName
    c.announcerId c.announcerEmail c.lineNumber c.now

theorem trainList_emptyStore (trainNumber : String) :
    trainList emptyStore trainNumber = [] := by
  simp [trainList, emptyStore, List.lookup]

theorem createdAt_ann (c : SaveCall) : c.ann.createdAt = c.now := rfl

/-- Invariant of a strictly-clocked sequence of saves: the stored
`createdAt` values are pairwise distinct, and each comes from one of the
calls. -/
theorem runSaves_nodup_mem (trainNumber : String) (calls : List SaveCall)
    (hp : (calls.map SaveCall.now).Pairwise (· < ·)) :
    ((trainList (runSaves trainNumber calls) trainNumber).map Announcement.createdAt).Nodup ∧
      ∀ a ∈ trainList (runSaves trainNumber calls) trainNumber,
        a.createdAt ∈ calls.map SaveCall.now := by
  induction calls using List.reverseRecOn with
  | nil =>
      constructor
      · simp [runSaves, trainList_emptyStore]
      · intro a ha
        rw [runSaves] at ha
        simp [trainList_emptyStore] at ha
  | append_singleton l c ih =>
      rw [List.map_append, List.pairwise_append] at hp
      obtain ⟨hp1, _, hlt⟩ := hp
      obtain ⟨hnd, hmem⟩ := ih hp1
      rw [runSaves_append, trainList_applySave]
      set prev := trainList (runSaves trainNumber l) trainNumber with hprev
      have hltc : ∀ x ∈ List.map SaveCall.now l, x < c.now := by
        intro x hx
        exact hlt x hx c.now (by simp)
      have hnd2 : ((prev ++ [c.ann]).map Announcement.createdAt).Nodup := by
        rw [List.map_append, List.nodup_append]
        refine ⟨hnd, by simp, ?_⟩
        intro x hx hx2
        simp only [List.map_cons, List.map_nil, List.mem_singleton, createdAt_ann] at hx2
        simp only [List.mem_map] at hx
        obtain ⟨a, ha, rfl⟩ := hx
        have := hltc a.createdAt (hmem a ha)
        omega
      constructor
      · exact saveAnnouncementList_createdAt_nodup hnd2
      · intro a ha
        have := mem_saveAnnouncementList_subset ha
        rw [List.mem_append] at this
        rw [List.map_append, List.mem_append]
        rcases this with h1 | h1
        · exact Or.inl (hmem a h1)
        · rw [List.mem_singleton] at h1
          subst h1
          right
          simp [createdAt_ann]

/-! ### Further helper lemmas -/

theorem lineDisplayFilter_eq (createdAt now : Int) :
    lineDisplayFilter createdAt now = shouldDisplayAnnouncement createdAt now := by
  simp only [lineDisplayFilter, shouldDisplayAnnouncement, isWithinHours, ge_iff_le]
  rw [decide_eq_decide]
  omega

theorem lookup_trains_saveAnnouncement (s : Store) (trainNumber : String) (text : String)
    (priority : AnnouncementPriority) (driverName : String)
    (announcerId announcerEmail lineNumber : Option String) (now : Int) :
    (saveAnnouncement s trainNumber text priority driverName announcerId
        announcerEmail lineNumber now).trains.lookup trainNumber =
      some (saveAnnouncementList (trainList s trainNumber)
        (newAnnouncementOf text priority driverName announcerId announcerEmail lineNumber now)
        now) := by
  unfold saveAnnouncement
  cases h : truthyOpt lineNumber with
  | none => simp only [h, lookup_setAssoc_self]
  | some ln => simp only [h, lookup_setAssoc_self]

/-! ### Claims -/

set_option maxRecDepth 100000 in
/-- C1 (the code side of the claim): running the spec's capacity scenario —
21 sequential `saveAnnouncement` calls to train `"200"` with strictly
increasing `createdAt` values `1, ..., 21`, all within the keep window —
leaves a stored list of length 20 whose `createdAt` values are
`[21, 19, 18, ..., 1]`: the second-newest value `20` has been dropped by the
capacity trim and the oldest value `1` is still stored, so the list does
not consist of the 20 most recent values as the claim requires. -/
theorem C1_capacity_trim_eval :
    (trainList (runSaves "200" capacityScenarioCalls) "200").map Announcement.createdAt =
      [21, 19, 18, 17, 16, 15, 14, 13, 12, 11, 10, 9, 8, 7, 6, 5, 4, 3, 2, 1] ∧
    (trainList (runSaves "200" capacityScenarioCalls) "200").length = 20 ∧
    (20 : Int) ∉
      (trainList (runSaves "200" capacityScenarioCalls) "200").map Announcement.createdAt ∧
    (1 : Int) ∈
      (trainList (runSaves "200" capacityScenarioCalls) "200").map Announcement.createdAt := by
  refine ⟨?_, ?_, ?_, ?_⟩ <;> decide

/-- C2 counterexample: the claim asserts a *strictly* descending stored
list for every sequence of calls, but two `saveAnnouncement` calls in the
same millisecond (`Date.now()` returning 5 twice) store two entries with
equal `createdAt`, which is not strictly descending. -/
theorem C2_strict_sort_counterexample :
    ¬ strictlyDescByCreatedAt (trainList (runSaves "200"
      [{ text := "a", priority := AnnouncementPriority.info, driverName := "d",
         announcerId := none, announcerEmail := none, lineNumber := none, now := 5 },
       { text := "b", priority := AnnouncementPriority.info, driverName := "d",
         announcerId := none, announcerEmail := none, lineNumber := none, now := 5 }])
      "200") := by
  decide

/-- C2 (amended: the clock is assumed to return a strictly larger value at
each successive call, as the claim's strict sortedness forces): for every
sequence of `saveAnnouncement` calls to the same train partition with
strictly increasing `Date.now()` values, after each call the stored list
has length at most 20, is sorted strictly descending by `createdAt`, and
contains only entries whose `createdAt` satisfied `shouldKeepAnnouncement`
at that write's clock. -/
theorem C2_save_sequence_invariants (trainNumber : String) (calls : List SaveCall)
    (hc : (calls.map SaveCall.now).Chain' (· < ·)) (n : Nat) (hn : n < calls.length) :
    (trainList (runSaves trainNumber (calls.take (n+1))) trainNumber).length ≤
        MAX_ANNOUNCEMENTS ∧
      strictlyDescByCreatedAt (trainList (runSaves trainNumber (calls.take (n+1))) trainNumber) ∧
      ∀ a ∈ trainList (runSaves trainNumber (calls.take (n+1))) trainNumber,
        shouldKeepAnnouncement a.createdAt (calls.get ⟨n, hn⟩).now = true := by
  have hpair : (calls.map SaveCall.now).Pairwise (· < ·) := List.chain'_iff_pairwise.mp hc
  have hpair2 : ((calls.take (n+1)).map SaveCall.now).Pairwise (· < ·) := by
    rw [List.map_take]
    exact List.Pairwise.sublist (List.take_sublist _ _) hpair
  have hkey := runSaves_nodup_mem trainNumber (calls.take (n+1)) hpair2
  have htake : calls.take (n+1) = calls.take n ++ [calls.get ⟨n, hn⟩] := by
    rw [List.take_succ, List.getElem?_eq_getElem hn]
    simp [List.get_eq_getElem]
  rw [htake, runSaves_append, trainList_applySave] at hkey ⊢
  refine ⟨saveAnnouncementList_length _ _ _, ?_, ?_⟩
  · exact strictlyDesc_of_sorted_nodup (saveAnnouncementList_sorted _ _ _) hkey.1
  · intro a ha
    exact keep_of_mem_saveAnnouncementList ha

/-- C2 witness: the amended invariant instantiated on two concrete calls to
train `"200"` with clocks 1 and 2, checked after the second call. -/
theorem C2_save_sequence_invariants_witness :
    (trainList (runSaves "200"
        [{ text := "a", priority := AnnouncementPriority.info, driverName := "d",
           announcerId := none, announcerEmail := none, lineNumber := none, now := 1 },
         { text := "b", priority := AnnouncementPriority.info, driverName := "d",
           announcerId := none, announcerEmail := none, lineNumber := none, now := 2 }])
        "200").length ≤ MAX_ANNOUNCEMENTS ∧
      strictlyDescByCreatedAt (trainList (runSaves "200"
        [{ text := "a", priority := AnnouncementPriority.info, driverName := "d",
           announcerId := none, announcerEmail := none, lineNumber := none, now := 1 },
         { text := "b", priority := AnnouncementPriority.info, driverName := "d",
           announcerId := none, announcerEmail := none, lineNumber := none, now := 2 }])
        "200") ∧
      ∀ a ∈ trainList (runSaves "200"
        [{ text := "a", priority := AnnouncementPriority.info, driverName := "d",
           announcerId := none, announcerEmail := none, lineNumber := none, now := 1 },
         { text := "b", priority := AnnouncementPriority.info, driverName := "d",
           announcerId := none, announcerEmail := none, lineNumber := none, now := 2 }])
        "200", shouldKeepAnnouncement a.createdAt 2 = true :=
  C2_save_sequence_invariants "200"
    [{ text := "a", priority := AnnouncementPriority.info, driverName := "d",
       announcerId := none, announcerEmail := none, lineNumber := none, now := 1 },
     { text := "b", priority := AnnouncementPriority.info, driverName := "d",
       announcerId := none, announcerEmail := none, lineNumber := none, now := 2 }]
    (List.chain'_iff_pairwise.mpr (by decide)) 1 (by decide)

/-- C3: for every timestamp and every clock value, an announcement inside
the 1-hour display window is also inside the 6-hour keep window. -/
theorem C3_display_implies_keep (t now : Int)
    (h : shouldDisplayAnnouncement t now = true) :
    shouldKeepAnnouncement t now = true := by
  simp only [shouldDisplayAnnouncement, shouldKeepAnnouncement, isWithinHours,
    decide_eq_true_eq] at h ⊢
  omega

/-- C3 witness: the implication applied at timestamp 0 under clock 0. -/
theorem C3_display_implies_keep_witness :
    shouldDisplayAnnouncement 0 0 = true ∧ shouldKeepAnnouncement 0 0 = true :=
  ⟨by decide, C3_display_implies_keep 0 0 (by decide)⟩

/-- C9: the inline one-hour filter of the line and combined subscriptions
(`a.createdAt >= Date.now() - 3600000`) agrees with
`shouldDisplayAnnouncement` (`now - createdAt <= 3600000`) on every
timestamp and every clock value. -/
theorem C9_inline_filter_equiv (createdAt now : Int) :
    lineDisplayFilter createdAt now = shouldDisplayAnnouncement createdAt now :=
  lineDisplayFilter_eq createdAt now

/-- C10: every successful `saveAnnouncement` stores the announcement it just
created in the train partition — its `createdAt` equals the write clock so
it passes the keep filter, and it sits at the tail so the capacity trim
cannot remove it — regardless of the previous store contents. -/
theorem C10_create_never_dropped (s : Store) (trainNumber : String) (text : String)
    (priority : AnnouncementPriority) (driverName : String)
    (announcerId announcerEmail lineNumber : Option String) (now : Int) :
    shouldKeepAnnouncement
        (newAnnouncementOf text priority driverName announcerId announcerEmail
          lineNumber now).createdAt now = true ∧
      newAnnouncementOf text priority driverName announcerId announcerEmail lineNumber now ∈
        trainList (saveAnnouncement s trainNumber text priority driverName announcerId
          announcerEmail lineNumber now) trainNumber := by
  constructor
  · simp only [newAnnouncementOf, shouldKeepAnnouncement, isWithinHours, decide_eq_true_eq]
    omega
  · rw [trainList_saveAnnouncement]
    exact mem_saveAnnouncementList_self _ rfl

/-- C4: `deleteAnnouncement` on a non-existent train partition fails with
the `"Train document not found"` error, while on an existing partition with
no entry matching the target `createdAt` it succeeds and writes the
partition's list back unchanged (a silent no-op). -/
theorem C4_delete_error_vs_noop (s : Store) (trainNumber : String) (ad : Announcement) :
    (s.trains.lookup trainNumber = none →
      deleteAnnouncement s trainNumber ad = .error "Train document not found") ∧
    (∀ l, s.trains.lookup trainNumber = some l →
      (∀ x ∈ l, x.createdAt ≠ ad.createdAt) →
      ∃ s2, deleteAnnouncement s trainNumber ad = .ok s2 ∧
        s2.trains.lookup trainNumber = some l) := by
  constructor
  · intro h
    unfold deleteAnnouncement
    rw [h]
  · intro l hl hne
    have hfil : l.filter (fun a => a.createdAt ≠ ad.createdAt) = l := by
      rw [List.filter_eq_self]
      intro a ha
      simpa using hne a ha
    unfold deleteAnnouncement
    rw [hl]
    cases h2 : truthyOpt ad.lineNumber with
    | some ln =>
        simp only [h2, hfil]
        exact ⟨_, rfl, lookup_setAssoc_self _ _ _⟩
    | none =>
        simp only [h2, hfil]
        exact ⟨_, rfl, lookup_setAssoc_self _ _ _⟩

/-- C4 witness: on a store holding only train `"100"` with one announcement
from millisecond 1, deleting a `createdAt = 2` announcement from the absent
train `"999"` errors, while deleting it from train `"100"` succeeds and
leaves the stored list unchanged. -/
theorem C4_delete_error_vs_noop_witness :
    deleteAnnouncement
        { trains := [("100",
            [{ text := "x", priority := AnnouncementPriority.info, driverName := "d",
               createdAt := 1, announcerId := none, announcerEmail := none,
               lineNumber := none }])], lines := [] } "999"
        { text := "y", priority := AnnouncementPriority.info, driverName := "d",
          createdAt := 2, announcerId := none, announcerEmail := none,
          lineNumber := none } = .error "Train document not found" ∧
    ∃ s2, deleteAnnouncement
        { trains := [("100",
            [{ text := "x", priority := AnnouncementPriority.info, driverName := "d",
               createdAt := 1, announcerId := none, announcerEmail := none,
               lineNumber := none }])], lines := [] } "100"
        { text := "y", priority := AnnouncementPriority.info, driverName := "d",
          createdAt := 2, announcerId := none, announcerEmail := none,
          lineNumber := none } = .ok s2 ∧
      s2.trains.lookup "100" = some
        [{ text := "x", priority := AnnouncementPriority.info, driverName := "d",
           createdAt := 1, announcerId := none, announcerEmail := none,
           lineNumber := none }] :=
  ⟨(C4_delete_error_vs_noop _ "999" _).1 (by decide),
   (C4_delete_error_vs_noop _ "100" _).2 _ (by decide) (by decide)⟩

/-- C5: creating an announcement on a train partition and then deleting that
same announcement (no intervening writes) succeeds and leaves a train
partition list with no entry whose `createdAt` equals the created one's. -/
theorem C5_create_delete_roundtrip (s : Store) (trainNumber : String) (text : String)
    (priority : AnnouncementPriority) (driverName : String)
    (announcerId announcerEmail lineNumber : Option String) (now : Int) :
    ∃ s2,
      deleteAnnouncement
          (saveAnnouncement s trainNumber text priority driverName announcerId
            announcerEmail lineNumber now)
          trainNumber
          (newAnnouncementOf text priority driverName announcerId announcerEmail
            lineNumber now) = .ok s2 ∧
        ∀ x ∈ trainList s2 trainNumber,
          x.createdAt ≠
            (newAnnouncementOf text priority driverName announcerId announcerEmail
              lineNumber now).createdAt := by
  set A := newAnnouncementOf text priority driverName announcerId announcerEmail
    lineNumber now with hA
  set s1 := saveAnnouncement s trainNumber text priority driverName announcerId
    announcerEmail lineNumber now with hs1
  have hl : s1.trains.lookup trainNumber =
      some (saveAnnouncementList (trainList s trainNumber) A now) :=
    lookup_trains_saveAnnouncement s trainNumber text priority driverName announcerId
      announcerEmail lineNumber now
  have hmemfil : ∀ x ∈ (saveAnnouncementList (trainList s trainNumber) A now).filter
      (fun a => a.createdAt ≠ A.createdAt), x.createdAt ≠ A.createdAt := by
    intro x hx
    simpa using (List.mem_filter.mp hx).2
  unfold deleteAnnouncement
  rw [hl]
  cases h2 : truthyOpt A.lineNumber with
  | some ln =>
      simp only [h2]
      refine ⟨_, rfl, ?_⟩
      intro x hx
      rw [trainList] at hx
      simp only [lookup_setAssoc_self, Option.getD_some] at hx
      exact hmemfil x hx
  | none =>
      simp only [h2]
      refine ⟨_, rfl, ?_⟩
      intro x hx
      rw [trainList] at hx
      simp only [lookup_setAssoc_self, Option.getD_some] at hx
      exact hmemfil x hx

theorem combineEmission_def (lineAnnouncements trainAnnouncements : List Announcement)
    (now : Int) :
    combineEmission lineAnnouncements trainAnnouncements now =
      sortByCreatedAtDesc ((lineAnnouncements ++ trainAnnouncements).filter
        (fun a => lineDisplayFilter a.createdAt now)) :=
  rfl

theorem lineSubscriptionEmission_def (docs : List (String × Announcement)) (now : Int) :
    lineSubscriptionEmission docs now =
      sortByCreatedAtDesc ((docs.map Prod.snd).filter
        (fun a => lineDisplayFilter a.createdAt now)) :=
  rfl

/-- C6: every emission of the combined subscription is the concatenation of
the current line buffer and the current train buffer, filtered to the
1-hour display window and sorted descending by `createdAt`; in particular
for a line buffer `[L1, L2]` and a train buffer `[T1]` with distinct
in-window `createdAt` values the emission contains exactly those three,
newest first (strictly descending). -/
theorem C6_combined_emission :
    (∀ (lineAnnouncements trainAnnouncements : List Announcement) (now : Int),
      combineEmission lineAnnouncements trainAnnouncements now =
        sortByCreatedAtDesc ((lineAnnouncements ++ trainAnnouncements).filter
          (fun a => shouldDisplayAnnouncement a.createdAt now))) ∧
    (∀ (L1 L2 T1 : Announcement) (now : Int),
      shouldDisplayAnnouncement L1.createdAt now = true →
      shouldDisplayAnnouncement L2.createdAt now = true →
      shouldDisplayAnnouncement T1.createdAt now = true →
      L1.createdAt ≠ L2.createdAt → L1.createdAt ≠ T1.createdAt →
      L2.createdAt ≠ T1.createdAt →
      (combineEmission [L1, L2] [T1] now).Perm [L1, L2, T1] ∧
        strictlyDescByCreatedAt (combineEmission [L1, L2] [T1] now)) := by
  constructor
  · intro lineAnnouncements trainAnnouncements now
    rw [combineEmission_def]
    congr 1
    apply List.filter_congr
    intro a _
    exact lineDisplayFilter_eq a.createdAt now
  · intro L1 L2 T1 now h1 h2 h3 h12 h13 h23
    have hfil : ([L1, L2] ++ [T1]).filter (fun a => lineDisplayFilter a.createdAt now) =
        [L1, L2, T1] := by
      simp only [List.cons_append, List.nil_append]
      rw [List.filter_eq_self]
      intro a ha
      rw [lineDisplayFilter_eq]
      simp only [List.mem_cons, List.not_mem_nil, or_false] at ha
      rcases ha with rfl | rfl | rfl <;> assumption
    constructor
    · rw [combineEmission_def, hfil]
      exact sortByCreatedAtDesc_perm _
    · rw [combineEmission_def, hfil]
      apply strictlyDesc_of_sorted_nodup (sortByCreatedAtDesc_sorted _)
      refine ((sortByCreatedAtDesc_perm [L1, L2, T1]).map Announcement.createdAt).nodup_iff.mpr ?_
      simp only [List.map_cons, List.map_nil, List.nodup_cons, List.mem_cons,
        List.not_mem_nil, or_false, List.nodup_nil, and_true, not_or, List.mem_singleton]
      exact ⟨⟨h12, h13⟩, h23, not_false⟩

/-- C6 witness: the instantiated merge on concrete buffers with `createdAt`
3, 2, 1 under clock 3. -/
theorem C6_combined_emission_witness :
    (combineEmission
        [{ text := "l1", priority := AnnouncementPriority.info, driverName := "d",
           createdAt := 3, announcerId := none, announcerEmail := none, lineNumber := some "1" },
         { text := "l2", priority := AnnouncementPriority.info, driverName := "d",
           createdAt := 2, announcerId := none, announcerEmail := none, lineNumber := some "1" }]
        [{ text := "t1", priority := AnnouncementPriority.info, driverName := "d",
           createdAt := 1, announcerId := none, announcerEmail := none, lineNumber := none }]
        3).Perm
      [{ text := "l1", priority := AnnouncementPriority.info, driverName := "d",
         createdAt := 3, announcerId := none, announcerEmail := none, lineNumber := some "1" },
       { text := "l2", priority := AnnouncementPriority.info, driverName := "d",
         createdAt := 2, announcerId := none, announcerEmail := none, lineNumber := some "1" },
       { text := "t1", priority := AnnouncementPriority.info, driverName := "d",
         createdAt := 1, announcerId := none, announcerEmail := none, lineNumber := none }] ∧
    strictlyDescByCreatedAt (combineEmission
        [{ text := "l1", priority := AnnouncementPriority.info, driverName := "d",
           createdAt := 3, announcerId := none, announcerEmail := none, lineNumber := some "1" },
         { text := "l2", priority := AnnouncementPriority.info, driverName := "d",
           createdAt := 2, announcerId := none, announcerEmail := none, lineNumber := some "1" }]
        [{ text := "t1", priority := AnnouncementPriority.info, driverName := "d",
           createdAt := 1, announcerId := none, announcerEmail := none, lineNumber := none }]
        3) :=
  C6_combined_emission.2 _ _ _ 3 (by decide) (by decide) (by decide)
    (by decide) (by decide) (by decide)

/-- C7: a `saveAnnouncement` call carrying a (truthy) `lineNumber` stores
the announcement in the train partition — so the train read path
(`getAnnouncements` at that clock) returns it — and additionally writes it
into the line partition under the sub-key `toString createdAt`, so the line
subscription's emission at that clock also contains it. -/
theorem C7_line_dual_write (s : Store) (trainNumber : String) (text : String)
    (priority : AnnouncementPriority) (driverName : String)
    (announcerId announcerEmail : Option String) (ln : String) (hln : ln ≠ "")
    (now : Int) :
    ((lineDocs (saveAnnouncement s trainNumber text priority driverName announcerId
          announcerEmail (some ln) now) ln).lookup (toString now) =
        some (newAnnouncementOf text priority driverName announcerId announcerEmail
          (some ln) now)) ∧
    (newAnnouncementOf text priority driverName announcerId announcerEmail (some ln) now ∈
      getAnnouncements (saveAnnouncement s trainNumber text priority driverName announcerId
        announcerEmail (some ln) now) trainNumber now) ∧
    (newAnnouncementOf text priority driverName announcerId announcerEmail (some ln) now ∈
      lineSubscriptionEmission (lineDocs (saveAnnouncement s trainNumber text priority
        driverName announcerId announcerEmail (some ln) now) ln) now) := by
  set A := newAnnouncementOf text priority driverName announcerId announcerEmail
    (some ln) now with hA
  have hdocs := lineDocs_saveAnnouncement s trainNumber text priority driverName
    announcerId announcerEmail hln now
  have hAc : A.createdAt = now := rfl
  refine ⟨?_, ?_, ?_⟩
  · rw [hdocs]
    exact lookup_setAssoc_self _ _ _
  · unfold getAnnouncements
    rw [lookup_trains_saveAnnouncement]
    rw [mem_sortByCreatedAtDesc, List.mem_filter]
    constructor
    · rw [← trainList_saveAnnouncement s trainNumber text priority driverName
        announcerId announcerEmail (some ln) now, trainList_saveAnnouncement]
      exact mem_saveAnnouncementList_self _ hAc
    · simp only [hAc, shouldDisplayAnnouncement, isWithinHours, decide_eq_true_eq]
      omega
  · rw [hdocs, lineSubscriptionEmission_def, mem_sortByCreatedAtDesc, List.mem_filter]
    constructor
    · exact mem_map_snd_setAssoc _ _ _
    · simp only [hAc, lineDisplayFilter, ge_iff_le, decide_eq_true_eq]
      omega

/-- C7 witness: the dual write on the empty store, train `"100"`, line
`"1"`, clock 0. -/
theorem C7_line_dual_write_witness :
    ((lineDocs (saveAnnouncement emptyStore "100" "t" AnnouncementPriority.info "d"
          none none (some "1") 0) "1").lookup (toString (0 : Int)) =
        some (newAnnouncementOf "t" AnnouncementPriority.info "d" none none (some "1") 0)) ∧
    (newAnnouncementOf "t" AnnouncementPriority.info "d" none none (some "1") 0 ∈
      getAnnouncements (saveAnnouncement emptyStore "100" "t" AnnouncementPriority.info "d"
        none none (some "1") 0) "100" 0) ∧
    (newAnnouncementOf "t" AnnouncementPriority.info "d" none none (some "1") 0 ∈
      lineSubscriptionEmission (lineDocs (saveAnnouncement emptyStore "100" "t"
        AnnouncementPriority.info "d" none none (some "1") 0) "1") 0) :=
  C7_line_dual_write emptyStore "100" "t" AnnouncementPriority.info "d" none none "1"
    (by decide) 0

/-- C8: a read through `getAnnouncements` propagates a failed `getDoc` as an
error, returns `[]` for a missing train document, and for an existing
document returns exactly the stored entries inside the display window,
sorted descending; the store-state reading agrees with the
`Except`-modelled one. -/
theorem C8_read_semantics :
    (∀ (e : String) (now : Int), getAnnouncementsRead (.error e) now = .error e) ∧
    (∀ now : Int, getAnnouncementsRead (.ok none) now = .ok []) ∧
    (∀ (l : List Announcement) (now : Int),
      ∃ r, getAnnouncementsRead (.ok (some l)) now = .ok r ∧
        r.Perm (l.filter (fun a => shouldDisplayAnnouncement a.createdAt now)) ∧
        r.Pairwise annDescLE) ∧
    (∀ (s : Store) (trainNumber : String) (now : Int),
      getAnnouncementsRead (.ok (s.trains.lookup trainNumber)) now =
        .ok (getAnnouncements s trainNumber now)) := by
  refine ⟨fun e now => rfl, fun now => rfl, ?_, ?_⟩
  · intro l now
    exact ⟨_, rfl, sortByCreatedAtDesc_perm _, sortByCreatedAtDesc_sorted _⟩
  · intro s trainNumber now
    unfold getAnnouncements getAnnouncementsRead
    cases s.trains.lookup trainNumber with
    | none => rfl
    | some l => rfl
